import Mathlib

/-!
The chart extraction pipeline of `Visualizations.jsx` (bs-analyst-ui)

A shallow embedding of `handleGenerateChart` and `SimpleBarChart`
(`src/bs-analyst-ui/src/component/Visualizations.jsx`).

* JavaScript strings are sequences of UTF-16 code units (`JSString`).
* `String.prototype.match` with the literal `/\{[\s\S]*\}/` is embedded as a
  backtracking matcher over the pattern items that literal is made of.
* Numbers are doubles: a finite double is kept as the rational it equals, and
  every decoding and arithmetic step rounds to the nearest double, ties to
  even, overflowing to an infinity. The two zeros are one value.
* `JSON.parse` is embedded as a lexer and a stack parser following the JSON
  grammar.
* The handler is a function from the component state and the outcome of the
  `fetch` call to the new state and the list of effects it performed.
-/

namespace BsAnalyst

/-! ## Strings -/

/-- A JavaScript string: its UTF-16 code units, in order. -/
abbrev JSString := List Nat

/-- The UTF-16 code units of one Unicode scalar value. -/
def utf16Char (c : Char) : List Nat :=
  if c.toNat < 65536 then [c.toNat]
  else [55296 + (c.toNat - 65536) / 1024, 56320 + (c.toNat - 65536) % 1024]

/-- The JavaScript string written by a literal. -/
def utf16 (s : String) : JSString :=
  s.toList.flatMap utf16Char

/-- Code unit of `{`. -/
abbrev cLBrace : Nat := 123
/-- Code unit of `}`. -/
abbrev cRBrace : Nat := 125

/-! ## The regular expression `/\{[\s\S]*\}/` -/

/-- A one-unit pattern atom: an escaped literal, or the class `[\s\S]`. -/
inductive Atom where
  | lit (c : Nat)
  | spaceOrNonSpace
  deriving DecidableEq, Repr

/-- The white space and line terminator units matched by `\s`. -/
def isRegexSpace (c : Nat) : Bool :=
  c == 9 || c == 10 || c == 11 || c == 12 || c == 13 || c == 32 || c == 160 ||
  c == 5760 || (8192 ≤ c && c ≤ 8202) || c == 8232 || c == 8233 || c == 8239 ||
  c == 8287 || c == 12288 || c == 65279

/-- Does the atom accept this code unit? `[\s\S]` is the union of `\s` and its
complement `\S`. -/
def Atom.test : Atom → Nat → Bool
  | .lit c, x => x == c
  | .spaceOrNonSpace, x => isRegexSpace x || !isRegexSpace x

/-- A pattern term: an atom, or an atom under the greedy quantifier `*`. -/
inductive Term where
  | one (a : Atom)
  | star (a : Atom)
  deriving DecidableEq, Repr

/-- Greedy `a*` followed by the continuation `k`: take one more unit if the rest
still matches that way, otherwise hand over to the continuation here. -/
def starLoop (test : Nat → Bool) (k : JSString → Option JSString) :
    JSString → Option JSString
  | [] => k []
  | x :: s =>
    if test x then
      match starLoop test k s with
      | some m => some (x :: m)
      | none => k (x :: s)
    else k (x :: s)

/-- Match a pattern at the start of the input; the result is the matched text. -/
def matchHere : List Term → JSString → Option JSString
  | [], _ => some []
  | .one a :: r, s =>
    match s with
    | [] => none
    | x :: s' => if a.test x then (matchHere r s').map (x :: ·) else none
  | .star a :: r, s => starLoop a.test (matchHere r) s

/-- Result of `RegExp.prototype.exec` without flags: the leftmost match, tried
at index 0, 1, ... in turn; `none` is `null`. The result is element `[0]`. -/
def regexExec (p : List Term) : JSString → Option JSString
  | [] => matchHere p []
  | x :: s =>
    match matchHere p (x :: s) with
    | some m => some m
    | none => regexExec p s

/-- The pattern of the literal `/\{[\s\S]*\}/`. -/
def bracePattern : List Term :=
  [.one (.lit cLBrace), .star .spaceOrNonSpace, .one (.lit cRBrace)]

/-- Value of `data.answer.match(/\{[\s\S]*\}/)`, as `jsonMatch[0]` or `none` for `null`. -/
def jsonMatch (answer : JSString) : Option JSString :=
  regexExec bracePattern answer

/-! ## Numbers -/

/-- A Number other than NaN: an infinity, or a finite double given by the
rational it equals. `JSON.parse` decodes every number literal to such a value. -/
inductive NonNaN where
  | negInf
  | fin (q : ℚ)
  | posInf
  deriving DecidableEq

/-- A JavaScript Number: NaN, the two infinities, or a finite value. -/
inductive JSNumber where
  | nan
  | negInf
  | posInf
  | fin (q : ℚ)
  deriving DecidableEq

/-- A Number other than NaN, as a Number. -/
def NonNaN.toNumber : NonNaN → JSNumber
  | .negInf => .negInf
  | .fin q => .fin q
  | .posInf => .posInf

/-- The same value with the other sign. -/
def NonNaN.neg : NonNaN → NonNaN
  | .negInf => .posInf
  | .fin q => .fin (-q)
  | .posInf => .negInf

instance (n : Nat) : OfNat NonNaN n := ⟨.fin (n : ℚ)⟩

/-- The integer nearest to a rational, the even one of the two when it lies
half way. -/
def roundHalfEven (x : ℚ) : ℤ :=
  let f := ⌊x⌋
  let d := x - f
  if d < 1 / 2 then f else if 1 / 2 < d then f + 1 else if f % 2 = 0 then f else f + 1

/-- The double nearest to a real value, ties to even (IEEE 754 binary64): the
value is rounded to a multiple of `2 ^ k`, where `k` is 52 below its binary
exponent and at least -1074, and a result of `2 ^ 1024` or more is an infinity. -/
def toDouble (q : ℚ) : NonNaN :=
  if q = 0 then .fin 0
  else
    let e := Int.log 2 |q|
    let k := max e (-1022) - 52
    let r : ℚ := (roundHalfEven (|q| / (2 : ℚ) ^ k) : ℚ) * (2 : ℚ) ^ k
    if (2 : ℚ) ^ (1024 : ℤ) ≤ r then (if q < 0 then .negInf else .posInf)
    else .fin (if q < 0 then -r else r)

/-- The comparison `a < b` on Numbers. -/
def jsLt : JSNumber → JSNumber → Bool
  | .nan, _ => false
  | _, .nan => false
  | .fin a, .fin b => decide (a < b)
  | .negInf, .negInf => false
  | .negInf, _ => true
  | .posInf, _ => false
  | .fin _, .posInf => true
  | .fin _, .negInf => false

/-- The comparison `a <= b` on Numbers. -/
def jsLe : JSNumber → JSNumber → Bool
  | .nan, _ => false
  | _, .nan => false
  | .negInf, _ => true
  | _, .posInf => true
  | .fin a, .fin b => decide (a ≤ b)
  | _, _ => false

instance : LE NonNaN := ⟨fun a b => jsLe a.toNumber b.toNumber = true⟩

/-- The operator `/` on Numbers. -/
def jsDiv : JSNumber → JSNumber → JSNumber
  | .nan, _ => .nan
  | _, .nan => .nan
  | .fin n, .fin d =>
    if d = 0 then (if n = 0 then .nan else if 0 < n then .posInf else .negInf)
    else (toDouble (n / d)).toNumber
  | .fin _, _ => .fin 0
  | .posInf, .fin d => if d < 0 then .negInf else .posInf
  | .negInf, .fin d => if d < 0 then .posInf else .negInf
  | _, _ => .nan

/-- The operator `*` on Numbers. -/
def jsMul : JSNumber → JSNumber → JSNumber
  | .nan, _ => .nan
  | _, .nan => .nan
  | .fin a, .fin b => (toDouble (a * b)).toNumber
  | .fin a, .posInf => if a = 0 then .nan else if 0 < a then .posInf else .negInf
  | .fin a, .negInf => if a = 0 then .nan else if 0 < a then .negInf else .posInf
  | .posInf, .fin b => if b = 0 then .nan else if 0 < b then .posInf else .negInf
  | .negInf, .fin b => if b = 0 then .nan else if 0 < b then .negInf else .posInf
  | .posInf, .posInf => .posInf
  | .negInf, .negInf => .posInf
  | _, _ => .negInf

/-! ## `JSON.parse` -/

/-- A value produced by `JSON.parse`. A number is the double nearest to what its
literal denotes; an object lists its members in the order the keys first occur. -/
inductive JSValue where
  | null
  | bool (b : Bool)
  | num (v : NonNaN)
  | str (s : JSString)
  | arr (elems : List JSValue)
  | obj (members : List (JSString × JSValue))

/-- A JSON token. -/
inductive Token where
  | lbrace | rbrace | lbrack | rbrack | colon | comma
  | str (s : JSString)
  | num (v : NonNaN)
  | word (v : JSValue)

/-- Digits and marks of a number literal read so far: sign, the digits of the
integer and fraction parts as one natural number, the number of fraction
digits, the sign and the digits of the exponent. -/
structure NumAcc where
  neg : Bool
  mant : Nat
  fracLen : Nat
  expNeg : Bool
  exp : Nat

/-- The rational a number literal denotes. -/
def NumAcc.value (a : NumAcc) : ℚ :=
  let scaled : ℚ := if a.expNeg then (a.mant : ℚ) / (10 : ℚ) ^ a.exp else (a.mant : ℚ) * (10 : ℚ) ^ a.exp
  let v : ℚ := scaled / (10 : ℚ) ^ a.fracLen
  if a.neg then -v else v

/-- The Number a number literal decodes to: the double nearest to what it denotes. -/
def NumAcc.number (a : NumAcc) : NonNaN :=
  toDouble a.value

/-- Where the lexer stands inside a number literal. -/
inductive NumPhase where
  | minus      -- after `-`, a digit must follow
  | zero       -- the integer part is the single digit `0`
  | int        -- inside an integer part that starts with 1-9
  | dot        -- after `.`, a digit must follow
  | frac       -- inside the fraction digits
  | expMark    -- after `e` or `E`
  | expSign    -- after the sign of the exponent, a digit must follow
  | expDigits  -- inside the exponent digits
  deriving DecidableEq

/-- Lexer state. -/
inductive LexState where
  | start
  | word (rest : List Nat) (v : JSValue)
  | inStr (acc : JSString)
  | esc (acc : JSString)
  | hex (acc : JSString) (seen : Nat) (code : Nat)
  | number (phase : NumPhase) (a : NumAcc)

/-- JSON white space: tab, line feed, carriage return, space. -/
def isJsonSpace (c : Nat) : Bool :=
  c == 9 || c == 10 || c == 13 || c == 32

/-- Is the unit a decimal digit? -/
def isDigit (c : Nat) : Bool := 48 ≤ c && c ≤ 57

/-- Value of a hexadecimal digit. -/
def hexDigit (c : Nat) : Option Nat :=
  if 48 ≤ c && c ≤ 57 then some (c - 48)
  else if 65 ≤ c && c ≤ 70 then some (c - 55)
  else if 97 ≤ c && c ≤ 102 then some (c - 87)
  else none

/-- The unit named by a one-letter escape. -/
def escapeUnit (c : Nat) : Option Nat :=
  if c == 34 then some 34        -- \"
  else if c == 92 then some 92   -- \\
  else if c == 47 then some 47   -- \/
  else if c == 98 then some 8    -- \b
  else if c == 102 then some 12  -- \f
  else if c == 110 then some 10  -- \n
  else if c == 114 then some 13  -- \r
  else if c == 116 then some 9   -- \t
  else none

/-- One unit read between tokens. -/
def lexStart (c : Nat) : Option (LexState × List Token) :=
  if isJsonSpace c then some (.start, [])
  else if c == 123 then some (.start, [.lbrace])
  else if c == 125 then some (.start, [.rbrace])
  else if c == 91 then some (.start, [.lbrack])
  else if c == 93 then some (.start, [.rbrack])
  else if c == 58 then some (.start, [.colon])
  else if c == 44 then some (.start, [.comma])
  else if c == 34 then some (.inStr [], [])
  else if c == 116 then some (.word [114, 117, 101] (.bool true), [])
  else if c == 102 then some (.word [97, 108, 115, 101] (.bool false), [])
  else if c == 110 then some (.word [117, 108, 108] .null, [])
  else if c == 45 then some (.number .minus ⟨true, 0, 0, false, 0⟩, [])
  else if c == 48 then some (.number .zero ⟨false, 0, 0, false, 0⟩, [])
  else if isDigit c then some (.number .int ⟨false, c - 48, 0, false, 0⟩, [])
  else none

/-- A number literal is over: emit it and read the unit as one between tokens. -/
def lexNumberEnd (a : NumAcc) (c : Nat) : Option (LexState × List Token) :=
  match lexStart c with
  | some (st, toks) => some (st, .num a.number :: toks)
  | none => none

/-- One unit read inside a number literal. -/
def lexNumber (phase : NumPhase) (a : NumAcc) (c : Nat) : Option (LexState × List Token) :=
  match phase with
  | .minus =>
    if c == 48 then some (.number .zero a, [])
    else if isDigit c then some (.number .int { a with mant := c - 48 }, [])
    else none
  | .zero =>
    if c == 46 then some (.number .dot a, [])
    else if c == 101 || c == 69 then some (.number .expMark a, [])
    else if isDigit c then none
    else lexNumberEnd a c
  | .int =>
    if isDigit c then some (.number .int { a with mant := a.mant * 10 + (c - 48) }, [])
    else if c == 46 then some (.number .dot a, [])
    else if c == 101 || c == 69 then some (.number .expMark a, [])
    else lexNumberEnd a c
  | .dot =>
    if isDigit c then
      some (.number .frac { a with mant := a.mant * 10 + (c - 48), fracLen := a.fracLen + 1 }, [])
    else none
  | .frac =>
    if isDigit c then
      some (.number .frac { a with mant := a.mant * 10 + (c - 48), fracLen := a.fracLen + 1 }, [])
    else if c == 101 || c == 69 then some (.number .expMark a, [])
    else lexNumberEnd a c
  | .expMark =>
    if c == 43 then some (.number .expSign a, [])
    else if c == 45 then some (.number .expSign { a with expNeg := true }, [])
    else if isDigit c then some (.number .expDigits { a with exp := c - 48 }, [])
    else none
  | .expSign =>
    if isDigit c then some (.number .expDigits { a with exp := c - 48 }, [])
    else none
  | .expDigits =>
    if isDigit c then some (.number .expDigits { a with exp := a.exp * 10 + (c - 48) }, [])
    else lexNumberEnd a c

/-- One step of the lexer: the next state and the tokens completed by this unit. -/
def lexStep : LexState → Nat → Option (LexState × List Token)
  | .start, c => lexStart c
  | .word [] _, _ => none
  | .word [r] v, c => if c == r then some (.start, [.word v]) else none
  | .word (r :: r2 :: rest) v, c => if c == r then some (.word (r2 :: rest) v, []) else none
  | .inStr acc, c =>
    if c == 34 then some (.start, [.str acc])
    else if c == 92 then some (.esc acc, [])
    else if c < 32 then none
    else some (.inStr (acc ++ [c]), [])
  | .esc acc, c =>
    if c == 117 then some (.hex acc 0 0, [])
    else match escapeUnit c with
      | some u => some (.inStr (acc ++ [u]), [])
      | none => none
  | .hex acc seen code, c =>
    match hexDigit c with
    | none => none
    | some d =>
      if seen == 3 then some (.inStr (acc ++ [code * 16 + d]), [])
      else some (.hex acc (seen + 1) (code * 16 + d), [])
  | .number phase a, c => lexNumber phase a c

/-- End of the text: only between tokens, or after a complete number literal. -/
def lexEnd : LexState → Option (List Token)
  | .start => some []
  | .number phase a =>
    if phase = .zero ∨ phase = .int ∨ phase = .frac ∨ phase = .expDigits then some [.num a.number]
    else none
  | _ => none

/-- The tokens of a text, from a lexer state. -/
def lexFrom : LexState → List Nat → Option (List Token)
  | st, [] => lexEnd st
  | st, c :: cs =>
    match lexStep st c with
    | none => none
    | some (st', toks) =>
      match lexFrom st' cs with
      | none => none
      | some more => some (toks ++ more)

/-- A container that is open around the value being read. -/
inductive Frame where
  | inArr (elems : List JSValue)
  | inObj (members : List (JSString × JSValue)) (key : JSString)

/-- Parser state: what may come next, and the open containers around it. -/
inductive PState where
  | value (stack : List Frame)
  | arrStart (stack : List Frame)
  | arrNext (stack : List Frame) (elems : List JSValue)
  | objStart (stack : List Frame)
  | key (stack : List Frame) (members : List (JSString × JSValue))
  | colon (stack : List Frame) (members : List (JSString × JSValue)) (key : JSString)
  | objNext (stack : List Frame) (members : List (JSString × JSValue))
  | done (v : JSValue)

/-- Define a property: a key already present keeps its place and takes the new
value, a new key goes to the end. -/
def setMember : List (JSString × JSValue) → JSString → JSValue → List (JSString × JSValue)
  | [], k, v => [(k, v)]
  | (k', v') :: rest, k, v =>
    if k' = k then (k', v) :: rest else (k', v') :: setMember rest k v

/-- A value is complete: it goes into the innermost open container. -/
def complete : List Frame → JSValue → PState
  | [], v => .done v
  | .inArr elems :: stack, v => .arrNext stack (elems ++ [v])
  | .inObj members key :: stack, v => .objNext stack (setMember members key v)

/-- A token where a value must start. -/
def stepValue (stack : List Frame) : Token → Option PState
  | .str s => some (complete stack (.str s))
  | .num q => some (complete stack (.num q))
  | .word v => some (complete stack v)
  | .lbrack => some (.arrStart stack)
  | .lbrace => some (.objStart stack)
  | _ => none

/-- One step of the parser. -/
def parseStep : PState → Token → Option PState
  | .value stack, t => stepValue stack t
  | .arrStart stack, .rbrack => some (complete stack (.arr []))
  | .arrStart stack, t => stepValue (.inArr [] :: stack) t
  | .arrNext stack elems, .comma => some (.value (.inArr elems :: stack))
  | .arrNext stack elems, .rbrack => some (complete stack (.arr elems))
  | .arrNext _ _, _ => none
  | .objStart stack, .rbrace => some (complete stack (.obj []))
  | .objStart stack, .str k => some (.colon stack [] k)
  | .objStart _, _ => none
  | .key stack members, .str k => some (.colon stack members k)
  | .key _ _, _ => none
  | .colon stack members k, .colon => some (.value (.inObj members k :: stack))
  | .colon _ _ _, _ => none
  | .objNext stack members, .comma => some (.key stack members)
  | .objNext stack members, .rbrace => some (complete stack (.obj members))
  | .objNext _ _, _ => none
  | .done _, _ => none

/-- Run the parser over the tokens; the text must be exactly one value. -/
def parseFrom : PState → List Token → Option JSValue
  | .done v, [] => some v
  | _, [] => none
  | st, t :: ts =>
    match parseStep st t with
    | none => none
    | some st' => parseFrom st' ts

/-- Result of `JSON.parse(text)`: the value, or `none` when it throws a SyntaxError. -/
def jsonParse (text : JSString) : Option JSValue :=
  match lexFrom .start text with
  | none => none
  | some toks => parseFrom (.value []) toks

/-! ## `handleGenerateChart` -/

/-- State of the `Visualizations` component; `chartData = none` is `null`. -/
structure VizState where
  selectedCompanyId : JSString
  chartData : Option JSValue
  loading : Bool

/-- What the awaited calls of lines 29-38 give: `fetch` rejects (the backend is
unreachable), or it resolves with a response of some HTTP status whose
`response.json()` rejects (`body = none`) or resolves with the decoded body. -/
inductive FetchOutcome where
  | rejected
  | response (status : Nat) (body : Option JSValue)

/-- An effect of the handler, in the order performed. -/
inductive Effect where
  | setLoading (b : Bool)
  | fetchAsk (companyId : JSString)
  | jsonParseCall (text : JSString)
  | setChartData (v : JSValue)
  | alert (msg : String)

/-- Notice of line 47. -/
def noticeExtract : String := "Could not extract chart data. Try uploading a balance sheet first."
/-- Notice of line 50. -/
def noticeParse : String := "Could not parse financial data. The document may not contain structured data."
/-- Notice of line 53. -/
def noticeError : String := "Error generating chart"

/-- Own property lookup `v[key]` on a decoded value; `none` is `undefined`. -/
def getProp : JSValue → JSString → Option JSValue
  | .obj members, key => (members.find? (fun m => m.1 = key)).map (·.2)
  | _, _ => none

/-- Outcome of the inner `try` block (lines 41-51) on the decoded body `data`:
the effects performed and the chart data to set, if any. Reading `.answer` of
`null`, and calling `.match` on anything but a string, throw a TypeError, and
`JSON.parse` throws a SyntaxError; all are caught at line 49. -/
def parseAnswer (data : JSValue) : List Effect × Option JSValue :=
  match data with
  | .null => ([.alert noticeParse], none)
  | _ =>
    match getProp data (utf16 "answer") with
    | some (.str answer) =>
      match jsonMatch answer with
      | some span =>
        match jsonParse span with
        | some parsed => ([.jsonParseCall span, .setChartData parsed], some parsed)
        | none => ([.jsonParseCall span, .alert noticeParse], none)
      | none => ([.alert noticeExtract], none)
    | _ => ([.alert noticeParse], none)

/-- Outcome of the outer `try` block (lines 28-54). -/
def tryFetch (companyId : JSString) (net : FetchOutcome) : List Effect × Option JSValue :=
  match net with
  | .rejected => ([.fetchAsk companyId, .alert noticeError], none)
  | .response _ none => ([.fetchAsk companyId, .alert noticeError], none)
  | .response _ (some data) =>
    let r := parseAnswer data
    (.fetchAsk companyId :: r.1, r.2)

/-- The handler `handleGenerateChart` run to completion: the new component state
and the effects performed. An empty `selectedCompanyId` returns at line 9. -/
def handleGenerateChart (st : VizState) (net : FetchOutcome) : VizState × List Effect :=
  if st.selectedCompanyId = [] then (st, [])
  else
    let r := tryFetch st.selectedCompanyId net
    ({ st with
        chartData := match r.2 with
          | some parsed => some parsed
          | none => st.chartData,
        loading := false },
      [.setLoading true] ++ r.1 ++ [.setLoading false])

/-- The notices shown by a run. -/
def alerts : List Effect → List String
  | [] => []
  | .alert msg :: rest => msg :: alerts rest
  | _ :: rest => alerts rest

/-- The texts handed to `JSON.parse` in a run. -/
def decodes : List Effect → List JSString
  | [] => []
  | .jsonParseCall t :: rest => t :: decodes rest
  | _ :: rest => decodes rest

/-- The values passed to `setChartData` in a run. -/
def chartWrites : List Effect → List JSValue
  | [] => []
  | .setChartData v :: rest => v :: chartWrites rest
  | _ :: rest => chartWrites rest

/-! ## `SimpleBarChart` -/

/-- A series handed to the chart: an array of decoded numbers. -/
abbrev Series := List NonNaN

/-- One iteration of `Math.max`: the next argument replaces the running value
when it is greater. -/
def maxStep (highest : JSNumber) (x : NonNaN) : JSNumber :=
  match highest with
  | .nan => .nan
  | h => if jsLt h x.toNumber then x.toNumber else h

/-- Result of `Math.max(...args)`: starts from `-Infinity`. -/
def mathMax (args : List NonNaN) : JSNumber :=
  args.foldl maxStep .negInf

/-- The shared scale of line 122, `Math.max(...data, ...(data2 || []))`. -/
def maxValue (data : Series) (data2 : Option Series) : JSNumber :=
  mathMax (data ++ data2.getD [])

/-- Value of `data[idx]` as a number: an index past the end reads `undefined`,
which converts to NaN. -/
def elemNumber (data : Series) (idx : Nat) : JSNumber :=
  match data.get? idx with
  | some x => x.toNumber
  | none => .nan

/-- The quotient `data[idx] / maxValue` of lines 134 and 147. -/
def proportion (data : Series) (scale : JSNumber) (idx : Nat) : JSNumber :=
  jsDiv (elemNumber data idx) scale

/-- One rendered bar: the number written before `%` in its width, the literal
value shown in `bar-value` (`none` when `data[idx]` is `undefined`), and the
caption and colour. -/
structure Bar where
  widthPercent : JSNumber
  value : Option NonNaN
  caption : String
  color : String

/-- One `chart-group`: the label, the bar of `data` and, when `data2` is given,
the bar of `data2`. -/
structure ChartGroup (L : Type) where
  label : L
  primary : Bar
  secondary : Option Bar

/-- Props of `SimpleBarChart`, with the defaults of line 121. `data` is an array
of numbers; `data2 = none` is an omitted (`undefined`) second series. -/
structure ChartProps (L : Type) where
  labels : List L
  data : Series
  data2 : Option Series := none
  color : String := "#2563eb"
  color2 : String := "#ef4444"
  label1 : String := "Value"
  label2 : String := "Value 2"

/-- The bar of one series at one index (lines 131-140 and 144-153). -/
def renderBar (data : Series) (scale : JSNumber) (idx : Nat) (caption color : String) : Bar :=
  { widthPercent := jsMul (proportion data scale idx) (.fin 100)
    value := data.get? idx
    caption := caption
    color := color }

/-- The callback of `labels.map` (lines 126-158) over the labels from index `idx` on. -/
def renderGroups {L : Type} (p : ChartProps L) (scale : JSNumber) : Nat → List L → List (ChartGroup L)
  | _, [] => []
  | idx, label :: rest =>
    { label := label
      primary := renderBar p.data scale idx p.label1 p.color
      secondary := p.data2.map (fun d2 => renderBar d2 scale idx p.label2 p.color2) }
    :: renderGroups p scale (idx + 1) rest

/-- The chart groups `SimpleBarChart` renders. -/
def SimpleBarChart {L : Type} (p : ChartProps L) : List (ChartGroup L) :=
  renderGroups p (maxValue p.data p.data2) 0 p.labels

/-! ## Notions used to state the properties -/

/-- A text has a brace span when an opening brace is followed later by a closing one. -/
def HasBraceSpan (text : JSString) : Prop :=
  ∃ a b c, text = a ++ cLBrace :: b ++ cRBrace :: c

/-- Length of the field of a decoded record when that field is a sequence. -/
def seriesLength (record : JSValue) (field : JSString) : Option Nat :=
  match getProp record field with
  | some (.arr elems) => some elems.length
  | _ => none

/-- The four metric fields of the extraction prompt (lines 17-20). -/
def metricFields : List JSString :=
  [utf16 "revenue", utf16 "assets", utf16 "liabilities", utf16 "equity"]

/-- A decoded body whose `answer` is the given text. -/
def answerBody (answer : JSString) : JSValue :=
  .obj [(utf16 "answer", .str answer)]

/-- A component state with company `1` selected and no chart yet. -/
def freshState : VizState :=
  { selectedCompanyId := utf16 "1", chartData := none, loading := false }

/-! ## Inputs of the scenarios -/

/-- The answer with commentary around the payload. -/
def answerScenario : JSString :=
  utf16 "Here you go: \x7b\"years\":[\"2023\",\"2024\"],\"revenue\":[100,150]\x7d thanks"

/-- The payload embedded in `answerScenario`. -/
def payloadScenario : JSString :=
  utf16 "\x7b\"years\":[\"2023\",\"2024\"],\"revenue\":[100,150]\x7d"

/-- The answer without any payload. -/
def answerNoSheet : JSString :=
  utf16 "I don\x27t see a balance sheet in this document."

/-- An answer whose `liabilities` has one value against two years. -/
def answerMismatch : JSString :=
  utf16 "\x7b\"years\":[\"2023\",\"2024\"],\"assets\":[10,20],\"liabilities\":[5]\x7d"

/-- The record `answerMismatch` decodes to. -/
def recordMismatch : JSValue :=
  .obj [(utf16 "years", .arr [.str (utf16 "2023"), .str (utf16 "2024")]),
        (utf16 "assets", .arr [.num 10, .num 20]),
        (utf16 "liabilities", .arr [.num 5])]

/-- The members of a well-formed object with aligned series. -/
def membersAligned : JSString :=
  utf16 "\"years\":[\"2023\"],\"revenue\":[1],\"assets\":[2],\"liabilities\":[3],\"equity\":[4]"

/-- A well-formed object with aligned series: the members between braces. -/
def payloadAligned : JSString :=
  cLBrace :: membersAligned ++ [cRBrace]

/-- Commentary before the payload that holds no brace. -/
def commentaryLead : JSString :=
  utf16 "Extracted metrics: "

/-- The record `payloadAligned` decodes to. -/
def recordAligned : JSValue :=
  .obj [(utf16 "years", .arr [.str (utf16 "2023")]),
        (utf16 "revenue", .arr [.num 1]),
        (utf16 "assets", .arr [.num 2]),
        (utf16 "liabilities", .arr [.num 3]),
        (utf16 "equity", .arr [.num 4])]

/-- Commentary after the payload that itself holds braces. -/
def commentaryBraces : JSString :=
  utf16 " (figures in \x7bUSD\x7d)"

/-- The text from the first opening to the last closing brace of
`payloadAligned ++ commentaryBraces`. -/
def spanBraces : JSString :=
  payloadAligned ++ utf16 " (figures in \x7bUSD\x7d"

/-- Commentary around the payload that holds no brace. -/
def commentaryPlain : JSString :=
  utf16 " (figures in USD)"

/-- An answer whose brace span is not JSON: the keys are not quoted. -/
def answerMalformed : JSString :=
  utf16 "\x7byears: [2023, 2024]\x7d"

/-- The decoded body of an error response: a `detail` field and no `answer`. -/
def bodyErrorDetail : JSValue :=
  .obj [(utf16 "detail", .str (utf16 "Internal Server Error"))]

/-- A component state that already shows a chart. -/
def chartedState : VizState :=
  { selectedCompanyId := utf16 "1", chartData := some recordAligned, loading := false }

/-! ## The span taken by the regular expression -/

theorem spaceOrNonSpace_test (x : Nat) : Atom.spaceOrNonSpace.test x = true := by
  simp [Atom.test]

/-- The continuation after `[\s\S]*`: the closing brace. -/
theorem matchHere_close (s : JSString) :
    matchHere [.one (.lit cRBrace)] s =
      match s with
      | [] => none
      | x :: _ => if x = cRBrace then some [x] else none := by
  cases s with
  | nil => rfl
  | cons x s => by_cases h : x = cRBrace <;> simp [matchHere, Atom.test, h]

theorem starLoop_no_close (s : JSString) (h : cRBrace ∉ s) :
    starLoop Atom.spaceOrNonSpace.test (matchHere [.one (.lit cRBrace)]) s = none := by
  induction s with
  | nil => simp [starLoop, matchHere]
  | cons x s ih =>
    have hx : x ≠ cRBrace := fun e => h (by simp [e])
    have hs : cRBrace ∉ s := fun m => h (List.mem_cons_of_mem _ m)
    rw [starLoop, spaceOrNonSpace_test, ih hs]
    simp [matchHere, Atom.test, hx]

theorem starLoop_last_close (a b : JSString) (h : cRBrace ∉ b) :
    starLoop Atom.spaceOrNonSpace.test (matchHere [.one (.lit cRBrace)]) (a ++ cRBrace :: b)
      = some (a ++ [cRBrace]) := by
  induction a with
  | nil =>
    rw [List.nil_append, starLoop, spaceOrNonSpace_test, starLoop_no_close b h]
    simp [matchHere, Atom.test]
  | cons x a ih =>
    rw [List.cons_append, starLoop, spaceOrNonSpace_test, ih]
    simp

theorem matchHere_brace_open (rest : JSString) :
    matchHere bracePattern (cLBrace :: rest) =
      (starLoop Atom.spaceOrNonSpace.test (matchHere [.one (.lit cRBrace)]) rest).map
        (cLBrace :: ·) := by
  simp [bracePattern, matchHere, Atom.test]

theorem matchHere_brace_other (x : Nat) (rest : JSString) (hx : x ≠ cLBrace) :
    matchHere bracePattern (x :: rest) = none := by
  simp [bracePattern, matchHere, Atom.test, hx]

theorem matchHere_brace_nil : matchHere bracePattern [] = none := by
  simp [bracePattern, matchHere]

/-- The match starts at the first opening brace and ends at the last closing brace. -/
theorem jsonMatch_span (pre mid post : JSString) (hpre : cLBrace ∉ pre) (hpost : cRBrace ∉ post) :
    jsonMatch (pre ++ cLBrace :: mid ++ cRBrace :: post) = some (cLBrace :: mid ++ [cRBrace]) := by
  unfold jsonMatch
  induction pre with
  | nil =>
    rw [List.nil_append, List.cons_append, regexExec, matchHere_brace_open,
      starLoop_last_close mid post hpost]
    simp
  | cons x pre ih =>
    have hx : x ≠ cLBrace := fun e => hpre (by simp [e])
    have hp : cLBrace ∉ pre := fun m => hpre (List.mem_cons_of_mem _ m)
    simp only [List.cons_append, regexExec, matchHere_brace_other _ _ hx]
    simpa using ih hp

/-- Without a brace span there is no match. -/
theorem jsonMatch_none (text : JSString) (h : ¬ HasBraceSpan text) : jsonMatch text = none := by
  unfold jsonMatch
  induction text with
  | nil => simp [regexExec, matchHere_brace_nil]
  | cons x s ih =>
    have hs : ¬ HasBraceSpan s := by
      rintro ⟨a, b, c, e⟩
      exact h ⟨x :: a, b, c, by simp [e]⟩
    by_cases hx : x = cLBrace
    · have hno : cRBrace ∉ s := by
        intro m
        obtain ⟨b, c, e⟩ := List.append_of_mem m
        exact h ⟨[], b, c, by simp [hx, e]⟩
      subst hx
      simp only [regexExec, matchHere_brace_open, starLoop_no_close s hno]
      simpa using ih hs
    · simp only [regexExec, matchHere_brace_other _ _ hx]
      simpa using ih hs

/-- The last closing brace of a list that has one. -/
theorem split_last_close (l : JSString) (h : cRBrace ∈ l) :
    ∃ mid post, l = mid ++ cRBrace :: post ∧ cRBrace ∉ post := by
  induction l with
  | nil => simp at h
  | cons x l ih =>
    by_cases hl : cRBrace ∈ l
    · obtain ⟨mid, post, e, hp⟩ := ih hl
      exact ⟨x :: mid, post, by simp [e], hp⟩
    · have hx : x = cRBrace := by
        rcases List.mem_cons.mp h with e | m
        · exact e.symm
        · exact absurd m hl
      exact ⟨[], l, by simp [hx], hl⟩

/-- A text with a brace span splits at its first opening and last closing brace. -/
theorem braceSpan_split (text : JSString) (h : HasBraceSpan text) :
    ∃ pre mid post, text = pre ++ cLBrace :: mid ++ cRBrace :: post ∧
      cLBrace ∉ pre ∧ cRBrace ∉ post := by
  induction text with
  | nil =>
    obtain ⟨a, b, c, e⟩ := h
    simp at e
  | cons x s ih =>
    by_cases hx : x = cLBrace
    · have hm : cRBrace ∈ s := by
        obtain ⟨a, b, c, e⟩ := h
        cases a with
        | nil =>
          simp at e
          simp [e.2]
        | cons y a =>
          simp at e
          simp [e.2]
      obtain ⟨mid, post, e, hp⟩ := split_last_close s hm
      exact ⟨[], mid, post, by simp [hx, e], by simp, hp⟩
    · have hs : HasBraceSpan s := by
        obtain ⟨a, b, c, e⟩ := h
        cases a with
        | nil =>
          simp at e
          exact absurd e.1 hx
        | cons y a =>
          simp at e
          exact ⟨a, b, c, by simp [e.2]⟩
      obtain ⟨pre, mid, post, e, h1, h2⟩ := ih hs
      refine ⟨x :: pre, mid, post, by simp [e], ?_, h2⟩
      intro m
      rcases List.mem_cons.mp m with e1 | m1
      · exact hx e1.symm
      · exact h1 m1

/-! ## The handler on a decoded body with a text answer -/

theorem getProp_answerBody (answer : JSString) :
    getProp (answerBody answer) (utf16 "answer") = some (.str answer) := by
  rfl

theorem parseAnswer_of_answer (data : JSValue) (answer : JSString)
    (hans : getProp data (utf16 "answer") = some (.str answer)) :
    parseAnswer data =
      match jsonMatch answer with
      | some span =>
        match jsonParse span with
        | some parsed => ([.jsonParseCall span, .setChartData parsed], some parsed)
        | none => ([.jsonParseCall span, .alert noticeParse], none)
      | none => ([.alert noticeExtract], none) := by
  cases data with
  | null => simp [getProp] at hans
  | _ => simp only [parseAnswer, hans]

theorem parseAnswer_no_answer (data : JSValue)
    (hans : ∀ answer, getProp data (utf16 "answer") ≠ some (.str answer)) :
    parseAnswer data = ([.alert noticeParse], none) := by
  cases data with
  | obj members =>
    simp only [parseAnswer]
  | _ => rfl

theorem handle_selected (st : VizState) (net : FetchOutcome) (hsel : st.selectedCompanyId ≠ []) :
    handleGenerateChart st net =
      ({ st with
          chartData := match (tryFetch st.selectedCompanyId net).2 with
            | some parsed => some parsed
            | none => st.chartData,
          loading := false },
        [.setLoading true] ++ (tryFetch st.selectedCompanyId net).1 ++ [.setLoading false]) := by
  simp [handleGenerateChart, hsel]

/-- Run on a text answer with no match: the extraction notice. -/
theorem handle_no_match (st : VizState) (status : Nat) (data : JSValue) (answer : JSString)
    (hsel : st.selectedCompanyId ≠ [])
    (hans : getProp data (utf16 "answer") = some (.str answer))
    (hno : jsonMatch answer = none) :
    handleGenerateChart st (.response status (some data)) =
      ({ st with loading := false },
        [.setLoading true, .fetchAsk st.selectedCompanyId, .alert noticeExtract,
          .setLoading false]) := by
  rw [handle_selected st _ hsel]
  simp [tryFetch, parseAnswer_of_answer data answer hans, hno]

/-- Run on a text answer whose span does not decode: the parse notice. -/
theorem handle_undecodable (st : VizState) (status : Nat) (data : JSValue)
    (answer span : JSString)
    (hsel : st.selectedCompanyId ≠ [])
    (hans : getProp data (utf16 "answer") = some (.str answer))
    (hspan : jsonMatch answer = some span) (hdec : jsonParse span = none) :
    handleGenerateChart st (.response status (some data)) =
      ({ st with loading := false },
        [.setLoading true, .fetchAsk st.selectedCompanyId, .jsonParseCall span,
          .alert noticeParse, .setLoading false]) := by
  rw [handle_selected st _ hsel]
  simp [tryFetch, parseAnswer_of_answer data answer hans, hspan, hdec]

/-- Run on a text answer whose span decodes: the decoded value becomes the chart data. -/
theorem handle_decoded (st : VizState) (status : Nat) (data : JSValue)
    (answer span : JSString) (parsed : JSValue)
    (hsel : st.selectedCompanyId ≠ [])
    (hans : getProp data (utf16 "answer") = some (.str answer))
    (hspan : jsonMatch answer = some span) (hdec : jsonParse span = some parsed) :
    handleGenerateChart st (.response status (some data)) =
      ({ st with chartData := some parsed, loading := false },
        [.setLoading true, .fetchAsk st.selectedCompanyId, .jsonParseCall span,
          .setChartData parsed, .setLoading false]) := by
  rw [handle_selected st _ hsel]
  simp [tryFetch, parseAnswer_of_answer data answer hans, hspan, hdec]

/-- Run on a decoded body without a text answer: the parse notice. -/
theorem handle_no_answer (st : VizState) (status : Nat) (data : JSValue)
    (hsel : st.selectedCompanyId ≠ [])
    (hans : ∀ answer, getProp data (utf16 "answer") ≠ some (.str answer)) :
    handleGenerateChart st (.response status (some data)) =
      ({ st with loading := false },
        [.setLoading true, .fetchAsk st.selectedCompanyId, .alert noticeParse,
          .setLoading false]) := by
  rw [handle_selected st _ hsel]
  simp [tryFetch, parseAnswer_no_answer data hans]

/-- Run when `fetch` or `response.json()` rejects: the generic notice. -/
theorem handle_transport (st : VizState) (net : FetchOutcome)
    (hsel : st.selectedCompanyId ≠ [])
    (hnet : net = .rejected ∨ ∃ status, net = .response status none) :
    handleGenerateChart st net =
      ({ st with loading := false },
        [.setLoading true, .fetchAsk st.selectedCompanyId, .alert noticeError,
          .setLoading false]) := by
  rw [handle_selected st _ hsel]
  rcases hnet with h | ⟨status, h⟩ <;> subst h <;> simp [tryFetch]

theorem freshState_selected : freshState.selectedCompanyId ≠ [] := by
  decide

theorem hasBraceSpan_mem (text : JSString) (h : HasBraceSpan text) : cLBrace ∈ text := by
  obtain ⟨a, b, c, e⟩ := h
  simp [e]

/-! ## Rounding to a double -/

theorem roundHalfEven_nonneg (x : ℚ) (hx : 0 ≤ x) : 0 ≤ roundHalfEven x := by
  have hf : 0 ≤ ⌊x⌋ := Int.floor_nonneg.mpr hx
  unfold roundHalfEven
  simp only
  split_ifs <;> omega

theorem roundHalfEven_le (x : ℚ) (M : ℤ) (hx : x ≤ M) : roundHalfEven x ≤ M := by
  have hf : ⌊x⌋ ≤ M := Int.floor_le_iff.mpr (lt_of_le_of_lt hx (by exact_mod_cast Int.lt_succ M))
  by_cases hM : ⌊x⌋ = M
  · have hd : x - ⌊x⌋ ≤ 0 := by rw [hM]; linarith
    unfold roundHalfEven
    simp only
    rw [if_pos (lt_of_le_of_lt hd (by norm_num))]
    exact hf
  · have hlt : ⌊x⌋ + 1 ≤ M := by omega
    unfold roundHalfEven
    simp only
    split_ifs <;> omega

theorem roundHalfEven_intCast (n : ℤ) : roundHalfEven (n : ℚ) = n := by
  unfold roundHalfEven
  simp

/-- The exponent of the last place is at most zero for values below 2^53. -/
theorem ulp_exponent_nonpos (a : ℚ) (ha : 0 < a) (hb : a < (2 : ℚ) ^ (53 : ℤ)) :
    max (Int.log 2 a) (-1022) - 52 ≤ 0 := by
  have h1 : ((2 : ℕ) : ℚ) ^ Int.log 2 a ≤ a := Int.zpow_log_le_self (by norm_num) ha
  have h2 : (2 : ℚ) ^ Int.log 2 a < (2 : ℚ) ^ (53 : ℤ) := lt_of_le_of_lt (by exact_mod_cast h1) hb
  have h3 : Int.log 2 a < 53 := (zpow_lt_zpow_iff_right₀ (by norm_num : (1 : ℚ) < 2)).mp h2
  have : max (Int.log 2 a) (-1022) ≤ 52 := max_le (by omega) (by norm_num)
  omega


/-- The value kept for a magnitude `a` whose last place has exponent `-j`. -/
theorem rounded_shift (a : ℚ) (j : ℕ) :
    a / (2 : ℚ) ^ (-(j : ℤ)) = a * (2 : ℚ) ^ j := by
  rw [zpow_neg, zpow_natCast, div_inv_eq_mul]

theorem toDouble_bounded (q : ℚ) (b : ℕ) (h0 : 0 ≤ q) (hq : q ≤ b)
    (hb : (b : ℚ) < (2 : ℚ) ^ (53 : ℤ)) :
    ∃ r, toDouble q = .fin r ∧ 0 ≤ r ∧ r ≤ b := by
  by_cases hz : q = 0
  · exact ⟨0, by simp [toDouble, hz], le_refl 0, by exact_mod_cast Nat.zero_le b⟩
  · have hpos : 0 < q := lt_of_le_of_ne h0 (Ne.symm hz)
    have habs : |q| = q := abs_of_pos hpos
    have hK := ulp_exponent_nonpos q hpos (lt_of_le_of_lt hq hb)
    obtain ⟨j, hj⟩ := Int.exists_eq_neg_ofNat hK
    have hpow : (0 : ℚ) < (2 : ℚ) ^ j := by positivity
    have hn0 : 0 ≤ roundHalfEven (q * (2 : ℚ) ^ j) :=
      roundHalfEven_nonneg _ (mul_nonneg h0 (le_of_lt hpow))
    have hnM : roundHalfEven (q * (2 : ℚ) ^ j) ≤ (b : ℤ) * 2 ^ j :=
      roundHalfEven_le _ _ (by push_cast; exact mul_le_mul_of_nonneg_right hq (le_of_lt hpow))
    have hr0 : (0 : ℚ) ≤ (roundHalfEven (q * (2 : ℚ) ^ j) : ℚ) * (2 : ℚ) ^ (-(j : ℤ)) := by
      apply mul_nonneg (by exact_mod_cast hn0)
      positivity
    have hrb : (roundHalfEven (q * (2 : ℚ) ^ j) : ℚ) * (2 : ℚ) ^ (-(j : ℤ)) ≤ b := by
      rw [zpow_neg, zpow_natCast, ← div_eq_mul_inv, div_le_iff₀ hpow]
      exact_mod_cast hnM
    refine ⟨(roundHalfEven (q * (2 : ℚ) ^ j) : ℚ) * (2 : ℚ) ^ (-(j : ℤ)), ?_, hr0, hrb⟩
    have hno : ¬ (2 : ℚ) ^ (1024 : ℤ) ≤
        (roundHalfEven (q * (2 : ℚ) ^ j) : ℚ) * (2 : ℚ) ^ (-(j : ℤ)) := by
      intro h
      have : (2 : ℚ) ^ (1024 : ℤ) < (2 : ℚ) ^ (53 : ℤ) := lt_of_le_of_lt (le_trans h hrb) hb
      norm_num at this
    unfold toDouble
    simp only [if_neg hz, habs, hj, rounded_shift, if_neg hno, if_neg (not_lt.mpr h0)]

/-- The exponent of the last place of a value below `2 ^ (53 - j)` is at most `-j`. -/
theorem ulp_exponent_le (a : ℚ) (j : ℕ) (ha : 0 < a) (hj : j ≤ 1074)
    (hb : a < (2 : ℚ) ^ (53 - (j : ℤ))) :
    max (Int.log 2 a) (-1022) - 52 ≤ -(j : ℤ) := by
  have h1 : ((2 : ℕ) : ℚ) ^ Int.log 2 a ≤ a := Int.zpow_log_le_self (by norm_num) ha
  have h2 : (2 : ℚ) ^ Int.log 2 a < (2 : ℚ) ^ (53 - (j : ℤ)) :=
    lt_of_le_of_lt (by exact_mod_cast h1) hb
  have h3 : Int.log 2 a < 53 - (j : ℤ) :=
    (zpow_lt_zpow_iff_right₀ (by norm_num : (1 : ℚ) < 2)).mp h2
  have : max (Int.log 2 a) (-1022) ≤ 52 - (j : ℤ) := max_le (by omega) (by omega)
  omega

/-- A value `n / 2 ^ j` with `n` below `2 ^ 53` and `j` at most 1074 is a double: rounding
keeps it. -/
theorem toDouble_dyadic (n j : ℕ) (hn : n < 2 ^ 53) (hj : j ≤ 1074) :
    toDouble ((n : ℚ) / (2 : ℚ) ^ j) = .fin ((n : ℚ) / (2 : ℚ) ^ j) := by
  have hpj : (0 : ℚ) < (2 : ℚ) ^ j := by positivity
  by_cases hz : (n : ℚ) / (2 : ℚ) ^ j = 0
  · simp [toDouble, hz]
  · have h0 : (0 : ℚ) ≤ (n : ℚ) / (2 : ℚ) ^ j := by positivity
    have hpos : (0 : ℚ) < (n : ℚ) / (2 : ℚ) ^ j := lt_of_le_of_ne h0 (Ne.symm hz)
    have habs : |(n : ℚ) / (2 : ℚ) ^ j| = (n : ℚ) / (2 : ℚ) ^ j := abs_of_pos hpos
    have hlt : (n : ℚ) / (2 : ℚ) ^ j < (2 : ℚ) ^ (53 - (j : ℤ)) := by
      rw [zpow_sub₀ (by norm_num : (2 : ℚ) ≠ 0), zpow_natCast]
      apply div_lt_div_of_pos_right _ hpj
      have : (n : ℚ) < ((2 ^ 53 : ℕ) : ℚ) := by exact_mod_cast hn
      rw [show ((53 : ℤ)) = ((53 : ℕ) : ℤ) from rfl, zpow_natCast]
      exact_mod_cast this
    have hK := ulp_exponent_le _ j hpos hj hlt
    obtain ⟨i, hi⟩ : ∃ i : ℕ, max (Int.log 2 ((n : ℚ) / (2 : ℚ) ^ j)) (-1022) - 52
        = -((j + i : ℕ) : ℤ) := by
      obtain ⟨t, ht⟩ := Int.exists_eq_neg_ofNat (le_trans hK (by omega : -(j : ℤ) ≤ 0))
      have : j ≤ t := by omega
      exact ⟨t - j, by rw [ht]; congr 2; omega⟩
    have hint : (n : ℚ) / (2 : ℚ) ^ j * (2 : ℚ) ^ (j + i) = ((n * 2 ^ i : ℤ) : ℚ) := by
      push_cast
      rw [pow_add]
      field_simp
      ring
    have hr : (roundHalfEven ((n : ℚ) / (2 : ℚ) ^ j * (2 : ℚ) ^ (j + i)) : ℚ)
        * (2 : ℚ) ^ (-((j + i : ℕ) : ℤ)) = (n : ℚ) / (2 : ℚ) ^ j := by
      rw [hint, roundHalfEven_intCast, zpow_neg, zpow_natCast, pow_add]
      push_cast
      field_simp
      ring
    have hno : ¬ (2 : ℚ) ^ (1024 : ℤ) ≤ (n : ℚ) / (2 : ℚ) ^ j := by
      intro h
      have h1 : (n : ℚ) / (2 : ℚ) ^ j ≤ n := div_le_self (by positivity) (one_le_pow₀ (by norm_num))
      have h2 : (n : ℚ) < ((2 ^ 53 : ℕ) : ℚ) := by exact_mod_cast hn
      have h3 : (2 : ℚ) ^ (1024 : ℤ) < ((2 ^ 53 : ℕ) : ℚ) := lt_of_le_of_lt (le_trans h h1) h2
      norm_num at h3
    unfold toDouble
    simp only [if_neg hz, habs, hi, rounded_shift, hr, if_neg hno, if_neg (not_lt.mpr h0)]

/-- A natural number below `2 ^ 53` is a double: rounding keeps it. -/
theorem toDouble_natCast (n : ℕ) (hn : n < 2 ^ 53) : toDouble (n : ℚ) = .fin n := by
  simpa using toDouble_dyadic n 0 hn (by norm_num)

/-- Rounding commutes with the sign. -/
theorem toDouble_neg (q : ℚ) : toDouble (-q) = (toDouble q).neg := by
  by_cases hz : q = 0
  · simp [toDouble, hz, NonNaN.neg]
  · have hz2 : -q ≠ 0 := neg_ne_zero.mpr hz
    unfold toDouble
    simp only [if_neg hz, if_neg hz2, abs_neg]
    rcases lt_or_gt_of_ne hz with h | h
    · have h2 : ¬ (-q < 0) := by linarith [h]
      simp only [h, h2, if_true, if_false]
      split_ifs <;> simp [NonNaN.neg]
    · have h1 : ¬ (q < 0) := not_lt.mpr (le_of_lt h)
      have h2 : -q < 0 := by linarith
      simp only [h1, h2, if_true, if_false]
      split_ifs <;> simp [NonNaN.neg]

theorem nonNaN_ofNat (n : Nat) : (OfNat.ofNat n : NonNaN) = .fin (n : ℚ) := by
  rfl

/-! ## Decoding the scenario payloads -/

theorem numAcc_nat (m : Nat) (hm : m < 2 ^ 53) :
    NumAcc.number ⟨false, m, 0, false, 0⟩ = .fin (m : ℚ) := by
  have hv : NumAcc.value ⟨false, m, 0, false, 0⟩ = (m : ℚ) := by simp [NumAcc.value]
  rw [NumAcc.number, hv, toDouble_natCast m hm]

theorem jsonParse_answerMismatch : jsonParse answerMismatch = some recordMismatch := by
  have h : jsonParse answerMismatch =
      some (.obj [(utf16 "years", .arr [.str (utf16 "2023"), .str (utf16 "2024")]),
        (utf16 "assets", .arr [.num (NumAcc.number ⟨false, 10, 0, false, 0⟩),
          .num (NumAcc.number ⟨false, 20, 0, false, 0⟩)]),
        (utf16 "liabilities", .arr [.num (NumAcc.number ⟨false, 5, 0, false, 0⟩)])]) := rfl
  rw [h, numAcc_nat 10 (by norm_num), numAcc_nat 20 (by norm_num), numAcc_nat 5 (by norm_num)]
  rfl

theorem jsonParse_payloadAligned : jsonParse payloadAligned = some recordAligned := by
  have h : jsonParse payloadAligned =
      some (.obj [(utf16 "years", .arr [.str (utf16 "2023")]),
        (utf16 "revenue", .arr [.num (NumAcc.number ⟨false, 1, 0, false, 0⟩)]),
        (utf16 "assets", .arr [.num (NumAcc.number ⟨false, 2, 0, false, 0⟩)]),
        (utf16 "liabilities", .arr [.num (NumAcc.number ⟨false, 3, 0, false, 0⟩)]),
        (utf16 "equity", .arr [.num (NumAcc.number ⟨false, 4, 0, false, 0⟩)])]) := rfl
  rw [h, numAcc_nat 1 (by norm_num), numAcc_nat 2 (by norm_num), numAcc_nat 3 (by norm_num),
    numAcc_nat 4 (by norm_num)]
  rfl

/-! ## Claims on `handleGenerateChart` -/

/-- C1 (as the code behaves): for every decoded record in which `years` is a sequence and a
present metric series has a length different from that of `years`, the handler performs no
schema check: it sets `chartData` to the record as decoded and shows no notice. -/
theorem mismatched_record_is_charted (st : VizState) (status : Nat) (data : JSValue)
    (answer span field : JSString) (record : JSValue) (n m : Nat)
    (hsel : st.selectedCompanyId ≠ [])
    (hans : getProp data (utf16 "answer") = some (.str answer))
    (hspan : jsonMatch answer = some span) (hdec : jsonParse span = some record)
    (_hyears : seriesLength record (utf16 "years") = some n)
    (_hfield : field ∈ metricFields) (_hlen : seriesLength record field = some m)
    (_hne : m ≠ n) :
    (handleGenerateChart st (.response status (some data))).1.chartData = some record ∧
    chartWrites (handleGenerateChart st (.response status (some data))).2 = [record] ∧
    alerts (handleGenerateChart st (.response status (some data))).2 = [] := by
  rw [handle_decoded st status data answer span record hsel hans hspan hdec]
  exact ⟨rfl, rfl, rfl⟩

/-- C1, witness: the record with two years, two assets and one liability. -/
theorem mismatched_record_is_charted_witness :
    seriesLength recordMismatch (utf16 "years") = some 2 ∧
    seriesLength recordMismatch (utf16 "liabilities") = some 1 ∧
    (handleGenerateChart freshState (.response 200 (some (answerBody answerMismatch)))).1.chartData
      = some recordMismatch :=
  ⟨by decide, by decide,
    (mismatched_record_is_charted freshState 200 (answerBody answerMismatch) answerMismatch
      answerMismatch (utf16 "liabilities") recordMismatch 2 1 freshState_selected
      (getProp_answerBody _) rfl jsonParse_answerMismatch (by decide) (by decide) (by decide)
      (by decide)).1⟩

/-- C1, counterexample: with `years` of length 2, `assets:[10,20]` and `liabilities:[5]` the
handler signals nothing and sets `chartData` to the record. -/
theorem schema_mismatch_counterexample :
    seriesLength recordMismatch (utf16 "years") = some 2 ∧
    seriesLength recordMismatch (utf16 "liabilities") = some 1 ∧
    alerts (handleGenerateChart freshState (.response 200 (some (answerBody answerMismatch)))).2
      = [] ∧
    (handleGenerateChart freshState (.response 200 (some (answerBody answerMismatch)))).1.chartData
      = some recordMismatch := by
  rw [handle_decoded freshState 200 (answerBody answerMismatch) answerMismatch answerMismatch
    recordMismatch freshState_selected (getProp_answerBody _) rfl jsonParse_answerMismatch]
  exact ⟨by decide, by decide, rfl, rfl⟩

/-- C2: for every answer text with no `{` followed later by a `}`, the handler hands nothing to
`JSON.parse`, sets no chart data and shows exactly the notice "Could not extract chart data.
Try uploading a balance sheet first.". -/
theorem no_span_extract_notice (st : VizState) (status : Nat) (data : JSValue)
    (answer : JSString)
    (hsel : st.selectedCompanyId ≠ [])
    (hans : getProp data (utf16 "answer") = some (.str answer))
    (hno : ¬ HasBraceSpan answer) :
    decodes (handleGenerateChart st (.response status (some data))).2 = [] ∧
    chartWrites (handleGenerateChart st (.response status (some data))).2 = [] ∧
    (handleGenerateChart st (.response status (some data))).1.chartData = st.chartData ∧
    alerts (handleGenerateChart st (.response status (some data))).2 = [noticeExtract] := by
  rw [handle_no_match st status data answer hsel hans (jsonMatch_none answer hno)]
  exact ⟨rfl, rfl, rfl, rfl⟩

/-- C2, witness: the answer "I don't see a balance sheet in this document.". -/
theorem no_span_extract_notice_witness :
    ¬ HasBraceSpan answerNoSheet ∧
    alerts (handleGenerateChart freshState (.response 200 (some (answerBody answerNoSheet)))).2
      = ["Could not extract chart data. Try uploading a balance sheet first."] :=
  ⟨fun h => absurd (hasBraceSpan_mem _ h) (by decide),
    (no_span_extract_notice freshState 200 (answerBody answerNoSheet) answerNoSheet
      freshState_selected (getProp_answerBody _)
      (fun h => absurd (hasBraceSpan_mem _ h) (by decide))).2.2.2⟩

/-- C3: for every answer text in which a `{` is followed later by a `}`, the text splits at its
first `{` and its last `}`, and for every such split the match of the regular expression is the
text from that first `{` to that last `}` inclusive, whatever braces lie in between. -/
theorem span_is_first_open_to_last_close (text : JSString) (h : HasBraceSpan text) :
    (∃ pre mid post, text = pre ++ cLBrace :: mid ++ cRBrace :: post ∧
      cLBrace ∉ pre ∧ cRBrace ∉ post) ∧
    ∀ pre mid post, text = pre ++ cLBrace :: mid ++ cRBrace :: post →
      cLBrace ∉ pre → cRBrace ∉ post →
      jsonMatch text = some (cLBrace :: mid ++ [cRBrace]) := by
  refine ⟨braceSpan_split text h, ?_⟩
  intro pre mid post e hpre hpost
  rw [e]
  exact jsonMatch_span pre mid post hpre hpost

/-- C3, witness: for "Here you go: {...} thanks" the span is the embedded object. -/
theorem span_is_first_open_to_last_close_witness :
    HasBraceSpan answerScenario ∧ jsonMatch answerScenario = some payloadScenario :=
  have hs : HasBraceSpan answerScenario :=
    ⟨utf16 "Here you go: ", utf16 "\"years\":[\"2023\",\"2024\"],\"revenue\":[100,150]",
      utf16 " thanks", by decide⟩
  ⟨hs, (span_is_first_open_to_last_close answerScenario hs).2 (utf16 "Here you go: ")
      (utf16 "\"years\":[\"2023\",\"2024\"],\"revenue\":[100,150]") (utf16 " thanks")
      (by decide) (by decide) (by decide)⟩

/-- C4 (as the code behaves): for every answer text made of a well-formed JSON object with text
before it that holds no `{` and text after it that holds no `}`, the handler sets `chartData` to
the value the object decodes to, so its `years`, `revenue`, `assets`, `liabilities` and `equity`
are those of the object. -/
theorem delimited_object_round_trip (st : VizState) (status : Nat) (data : JSValue)
    (pre mid post : JSString) (record : JSValue)
    (hsel : st.selectedCompanyId ≠ [])
    (hans : getProp data (utf16 "answer") =
      some (.str (pre ++ cLBrace :: mid ++ cRBrace :: post)))
    (hpre : cLBrace ∉ pre) (hpost : cRBrace ∉ post)
    (hdec : jsonParse (cLBrace :: mid ++ [cRBrace]) = some record) :
    (handleGenerateChart st (.response status (some data))).1.chartData = some record ∧
    (∀ field, ((handleGenerateChart st (.response status (some data))).1.chartData.bind
      (fun chart => getProp chart field)) = getProp record field) ∧
    alerts (handleGenerateChart st (.response status (some data))).2 = [] := by
  rw [handle_decoded st status data _ _ record hsel hans (jsonMatch_span pre mid post hpre hpost)
    hdec]
  exact ⟨rfl, fun _ => rfl, rfl⟩

/-- C4, witness: the aligned object between commentary without braces. -/
theorem delimited_object_round_trip_witness :
    jsonParse payloadAligned = some recordAligned ∧
    (handleGenerateChart freshState
      (.response 200 (some (answerBody
        (commentaryLead ++ cLBrace :: membersAligned ++ cRBrace :: commentaryPlain))))).1.chartData
      = some recordAligned :=
  ⟨jsonParse_payloadAligned,
    (delimited_object_round_trip freshState 200
      (answerBody (commentaryLead ++ cLBrace :: membersAligned ++ cRBrace :: commentaryPlain))
      commentaryLead membersAligned commentaryPlain recordAligned freshState_selected
      (getProp_answerBody _) (by decide) (by decide) jsonParse_payloadAligned).1⟩

/-- C4, counterexample: the answer contains a well-formed object with all four series as long
as `years`, followed by commentary with braces; no chart data is produced and the parse notice
is shown. -/
theorem trailing_brace_counterexample :
    jsonParse payloadAligned = some recordAligned ∧
    seriesLength recordAligned (utf16 "years") = some 1 ∧
    (∀ field ∈ metricFields, seriesLength recordAligned field = some 1) ∧
    (handleGenerateChart freshState
      (.response 200 (some (answerBody (payloadAligned ++ commentaryBraces))))).1.chartData
      = none ∧
    alerts (handleGenerateChart freshState
      (.response 200 (some (answerBody (payloadAligned ++ commentaryBraces))))).2
      = [noticeParse] := by
  rw [handle_undecodable freshState 200 (answerBody (payloadAligned ++ commentaryBraces))
    (payloadAligned ++ commentaryBraces) spanBraces freshState_selected (getProp_answerBody _)
    rfl rfl]
  exact ⟨jsonParse_payloadAligned, by decide, by decide, rfl, rfl⟩

/-- C8 (as the code behaves): for every answer text in which a `{…}` span exists but fails to
decode as JSON, the handler shows the notice "Could not parse financial data. The document may
not contain structured data." (not the notice of a missing payload) and sets no chart data. -/
theorem undecodable_span_parse_notice (st : VizState) (status : Nat) (data : JSValue)
    (pre mid post : JSString)
    (hsel : st.selectedCompanyId ≠ [])
    (hans : getProp data (utf16 "answer") =
      some (.str (pre ++ cLBrace :: mid ++ cRBrace :: post)))
    (hpre : cLBrace ∉ pre) (hpost : cRBrace ∉ post)
    (hdec : jsonParse (cLBrace :: mid ++ [cRBrace]) = none) :
    alerts (handleGenerateChart st (.response status (some data))).2 = [noticeParse] ∧
    decodes (handleGenerateChart st (.response status (some data))).2
      = [cLBrace :: mid ++ [cRBrace]] ∧
    chartWrites (handleGenerateChart st (.response status (some data))).2 = [] ∧
    (handleGenerateChart st (.response status (some data))).1.chartData = st.chartData := by
  rw [handle_undecodable st status data _ _ hsel hans (jsonMatch_span pre mid post hpre hpost)
    hdec]
  exact ⟨rfl, rfl, rfl, rfl⟩

/-- C8, witness: the span with unquoted keys. -/
theorem undecodable_span_parse_notice_witness :
    jsonParse answerMalformed = none ∧
    alerts (handleGenerateChart freshState (.response 200 (some (answerBody answerMalformed)))).2
      = ["Could not parse financial data. The document may not contain structured data."] :=
  ⟨rfl,
    (undecodable_span_parse_notice freshState 200 (answerBody answerMalformed) []
      (utf16 "years: [2023, 2024]") [] freshState_selected (getProp_answerBody _)
      (by decide) (by decide) rfl).1⟩

/-- C8, counterexample: a span that does not decode is not surfaced with the notice of a missing
payload. -/
theorem malformed_notice_counterexample :
    HasBraceSpan answerMalformed ∧ jsonParse answerMalformed = none ∧
    alerts (handleGenerateChart freshState (.response 200 (some (answerBody answerMalformed)))).2
      ≠ [noticeExtract] := by
  rw [handle_undecodable freshState 200 (answerBody answerMalformed) answerMalformed
    answerMalformed freshState_selected (getProp_answerBody _) rfl rfl]
  exact ⟨⟨[], utf16 "years: [2023, 2024]", [], by decide⟩, rfl, by decide⟩

theorem getProp_bodyErrorDetail : getProp bodyErrorDetail (utf16 "answer") = none := by
  rfl

/-- C9 (as the code behaves): with a selected company, when `fetch` rejects or the body of the
response is not JSON the handler shows "Error generating chart" and sets no chart data; the HTTP
status is never read, so a response whose body decodes is handled the same under every status,
and when that body has no text `answer` the notice is the parse notice. -/
theorem transport_failure_notice (st : VizState) (hsel : st.selectedCompanyId ≠ []) :
    (∀ net, (net = .rejected ∨ ∃ status, net = .response status none) →
      alerts (handleGenerateChart st net).2 = [noticeError] ∧
      chartWrites (handleGenerateChart st net).2 = [] ∧
      (handleGenerateChart st net).1.chartData = st.chartData) ∧
    (∀ status status2 body,
      handleGenerateChart st (.response status body)
        = handleGenerateChart st (.response status2 body)) ∧
    (∀ status data, (∀ answer, getProp data (utf16 "answer") ≠ some (.str answer)) →
      alerts (handleGenerateChart st (.response status (some data))).2 = [noticeParse] ∧
      chartWrites (handleGenerateChart st (.response status (some data))).2 = [] ∧
      (handleGenerateChart st (.response status (some data))).1.chartData = st.chartData) := by
  refine ⟨?_, ?_, ?_⟩
  · intro net hnet
    rw [handle_transport st net hsel hnet]
    exact ⟨rfl, rfl, rfl⟩
  · intro status status2 body
    cases body <;> simp [handleGenerateChart, tryFetch]
  · intro status data hans
    rw [handle_no_answer st status data hsel hans]
    exact ⟨rfl, rfl, rfl⟩

/-- C9, witness: an unreachable backend gives the generic notice. -/
theorem transport_failure_notice_witness :
    freshState.selectedCompanyId ≠ [] ∧
    alerts (handleGenerateChart freshState .rejected).2 = ["Error generating chart"] :=
  ⟨freshState_selected,
    ((transport_failure_notice freshState freshState_selected).1 .rejected (Or.inl rfl)).1⟩

/-- C9, counterexample: status 500 with a JSON body that has no `answer` gives the parse notice,
not "Error generating chart". -/
theorem error_status_counterexample :
    alerts (handleGenerateChart freshState (.response 500 (some bodyErrorDetail))).2
      = [noticeParse] ∧
    noticeParse ≠ noticeError := by
  rw [handle_no_answer freshState 500 bodyErrorDetail freshState_selected
    (fun answer h => by rw [getProp_bodyErrorDetail] at h; cases h)]
  exact ⟨rfl, by decide⟩

/-- C10 (as the code behaves): for every state and every call with a selected company, when the
new extraction succeeds (the span of the answer decodes) the chart data is replaced by the new
record; in each failing case (fetch rejected or body not JSON, no text answer, no brace span,
span that does not decode) one notice is shown, nothing is written and `chartData` is what it
was before, so a prior snapshot is kept. Every call falls in one of these cases. -/
theorem prior_snapshot_kept_on_failure (st : VizState) (net : FetchOutcome)
    (hsel : st.selectedCompanyId ≠ []) :
    ((net = .rejected ∨ ∃ status, net = .response status none) →
      alerts (handleGenerateChart st net).2 = [noticeError] ∧
      chartWrites (handleGenerateChart st net).2 = [] ∧
      (handleGenerateChart st net).1.chartData = st.chartData) ∧
    (∀ status data, net = .response status (some data) →
      (∀ answer, getProp data (utf16 "answer") ≠ some (.str answer)) →
      alerts (handleGenerateChart st net).2 = [noticeParse] ∧
      chartWrites (handleGenerateChart st net).2 = [] ∧
      (handleGenerateChart st net).1.chartData = st.chartData) ∧
    (∀ status data answer, net = .response status (some data) →
      getProp data (utf16 "answer") = some (.str answer) → jsonMatch answer = none →
      alerts (handleGenerateChart st net).2 = [noticeExtract] ∧
      chartWrites (handleGenerateChart st net).2 = [] ∧
      (handleGenerateChart st net).1.chartData = st.chartData) ∧
    (∀ status data answer span, net = .response status (some data) →
      getProp data (utf16 "answer") = some (.str answer) → jsonMatch answer = some span →
      jsonParse span = none →
      alerts (handleGenerateChart st net).2 = [noticeParse] ∧
      chartWrites (handleGenerateChart st net).2 = [] ∧
      (handleGenerateChart st net).1.chartData = st.chartData) ∧
    (∀ status data answer span record, net = .response status (some data) →
      getProp data (utf16 "answer") = some (.str answer) → jsonMatch answer = some span →
      jsonParse span = some record →
      alerts (handleGenerateChart st net).2 = [] ∧
      chartWrites (handleGenerateChart st net).2 = [record] ∧
      (handleGenerateChart st net).1.chartData = some record) ∧
    ((∃ record, chartWrites (handleGenerateChart st net).2 = [record] ∧
        alerts (handleGenerateChart st net).2 = [] ∧
        (handleGenerateChart st net).1.chartData = some record) ∨
      (∃ msg, alerts (handleGenerateChart st net).2 = [msg] ∧
        chartWrites (handleGenerateChart st net).2 = [] ∧
        (handleGenerateChart st net).1.chartData = st.chartData)) := by
  refine ⟨?_, ?_, ?_, ?_, ?_, ?_⟩
  · intro hnet
    rw [handle_transport st net hsel hnet]
    exact ⟨rfl, rfl, rfl⟩
  · intro status data hnet hans
    rw [hnet, handle_no_answer st status data hsel hans]
    exact ⟨rfl, rfl, rfl⟩
  · intro status data answer hnet hans hm
    rw [hnet, handle_no_match st status data answer hsel hans hm]
    exact ⟨rfl, rfl, rfl⟩
  · intro status data answer span hnet hans hm hd
    rw [hnet, handle_undecodable st status data answer span hsel hans hm hd]
    exact ⟨rfl, rfl, rfl⟩
  · intro status data answer span record hnet hans hm hd
    rw [hnet, handle_decoded st status data answer span record hsel hans hm hd]
    exact ⟨rfl, rfl, rfl⟩
  · cases net with
    | rejected =>
      right
      rw [handle_transport st _ hsel (Or.inl rfl)]
      exact ⟨noticeError, rfl, rfl, rfl⟩
    | response status body =>
      cases body with
      | none =>
        right
        rw [handle_transport st _ hsel (Or.inr ⟨status, rfl⟩)]
        exact ⟨noticeError, rfl, rfl, rfl⟩
      | some data =>
        by_cases hans : ∃ answer, getProp data (utf16 "answer") = some (.str answer)
        · obtain ⟨answer, hans⟩ := hans
          cases hm : jsonMatch answer with
          | none =>
            right
            rw [handle_no_match st status data answer hsel hans hm]
            exact ⟨noticeExtract, rfl, rfl, rfl⟩
          | some span =>
            cases hd : jsonParse span with
            | none =>
              right
              rw [handle_undecodable st status data answer span hsel hans hm hd]
              exact ⟨noticeParse, rfl, rfl, rfl⟩
            | some record =>
              left
              rw [handle_decoded st status data answer span record hsel hans hm hd]
              exact ⟨record, rfl, rfl, rfl⟩
        · right
          rw [handle_no_answer st status data hsel (fun answer h => hans ⟨answer, h⟩)]
          exact ⟨noticeParse, rfl, rfl, rfl⟩

/-- C10, witness: the state shows a snapshot, the backend is unreachable, and the snapshot is
still the chart data after the run. -/
theorem prior_snapshot_kept_on_failure_witness :
    chartedState.selectedCompanyId ≠ [] ∧
    chartedState.chartData = some recordAligned ∧
    alerts (handleGenerateChart chartedState .rejected).2 = ["Error generating chart"] ∧
    chartWrites (handleGenerateChart chartedState .rejected).2 = [] ∧
    (handleGenerateChart chartedState .rejected).1.chartData = some recordAligned :=
  ⟨by decide, rfl,
    ((prior_snapshot_kept_on_failure chartedState .rejected (by decide)).1 (Or.inl rfl)).1,
    ((prior_snapshot_kept_on_failure chartedState .rejected (by decide)).1 (Or.inl rfl)).2.1,
    ((prior_snapshot_kept_on_failure chartedState .rejected (by decide)).1 (Or.inl rfl)).2.2⟩

/-- C10, counterexample: the state shows a snapshot, the new answer holds no payload, and the
prior snapshot is still the chart data afterwards. -/
theorem stale_snapshot_counterexample :
    chartedState.chartData = some recordAligned ∧
    alerts (handleGenerateChart chartedState
      (.response 200 (some (answerBody answerNoSheet)))).2 = [noticeExtract] ∧
    (handleGenerateChart chartedState
      (.response 200 (some (answerBody answerNoSheet)))).1.chartData = some recordAligned := by
  rw [handle_no_match chartedState 200 (answerBody answerNoSheet) answerNoSheet (by decide)
    (getProp_answerBody _)
    (jsonMatch_none _ (fun h => absurd (hasBraceSpan_mem _ h) (by decide)))]
  exact ⟨rfl, rfl, rfl⟩

/-! ## The shared scale -/

theorem nonNaN_fin_le (a b : ℚ) : NonNaN.fin a ≤ NonNaN.fin b ↔ a ≤ b := by
  show decide (a ≤ b) = true ↔ a ≤ b
  exact decide_eq_true_iff

theorem nonNaN_negInf_le (b : NonNaN) : NonNaN.negInf ≤ b := by
  cases b <;> rfl

theorem nonNaN_le_posInf (a : NonNaN) : a ≤ NonNaN.posInf := by
  cases a <;> rfl

theorem nonNaN_not_fin_le_negInf (a : ℚ) : ¬ NonNaN.fin a ≤ NonNaN.negInf := by
  intro h
  cases h

theorem nonNaN_not_posInf_le_fin (b : ℚ) : ¬ NonNaN.posInf ≤ NonNaN.fin b := by
  intro h
  cases h

theorem nonNaN_not_posInf_le_negInf : ¬ NonNaN.posInf ≤ NonNaN.negInf := by
  intro h
  cases h

theorem nonNaN_le_refl (a : NonNaN) : a ≤ a := by
  cases a with
  | negInf => exact nonNaN_negInf_le _
  | posInf => exact nonNaN_le_posInf _
  | fin q => exact (nonNaN_fin_le q q).mpr (le_refl q)

theorem nonNaN_le_trans (a b c : NonNaN) (hab : a ≤ b) (hbc : b ≤ c) : a ≤ c := by
  cases a with
  | negInf => exact nonNaN_negInf_le _
  | posInf =>
    cases b with
    | posInf => exact hbc
    | negInf => exact absurd hab nonNaN_not_posInf_le_negInf
    | fin q => exact absurd hab (nonNaN_not_posInf_le_fin q)
  | fin x =>
    cases c with
    | posInf => exact nonNaN_le_posInf _
    | negInf =>
      cases b with
      | negInf => exact hab
      | posInf => exact absurd hbc nonNaN_not_posInf_le_negInf
      | fin y => exact absurd hbc (nonNaN_not_fin_le_negInf y)
    | fin z =>
      cases b with
      | negInf => exact absurd hab (nonNaN_not_fin_le_negInf x)
      | posInf => exact absurd hbc (nonNaN_not_posInf_le_fin z)
      | fin y =>
        exact (nonNaN_fin_le x z).mpr
          (le_trans ((nonNaN_fin_le x y).mp hab) ((nonNaN_fin_le y z).mp hbc))

theorem jsLt_fin (a b : ℚ) : jsLt (.fin a) (.fin b) = decide (a < b) := by
  rfl

theorem nonNaN_le_of_lt (a b : NonNaN) (h : jsLt a.toNumber b.toNumber = true) : a ≤ b := by
  cases a with
  | negInf => exact nonNaN_negInf_le _
  | posInf => cases b <;> cases h
  | fin x =>
    cases b with
    | negInf => cases h
    | posInf => exact nonNaN_le_posInf _
    | fin y =>
      have h2 : decide (x < y) = true := h
      exact (nonNaN_fin_le x y).mpr (le_of_lt (decide_eq_true_iff.mp h2))

theorem nonNaN_le_of_not_lt (a b : NonNaN) (h : jsLt a.toNumber b.toNumber = false) : b ≤ a := by
  cases a with
  | posInf => exact nonNaN_le_posInf _
  | negInf =>
    cases b with
    | negInf => exact nonNaN_negInf_le _
    | posInf => cases h
    | fin y => cases h
  | fin x =>
    cases b with
    | negInf => exact nonNaN_negInf_le _
    | posInf => cases h
    | fin y =>
      have h2 : decide (x < y) = false := h
      exact (nonNaN_fin_le y x).mpr (not_lt.mp (decide_eq_false_iff_not.mp h2))

theorem maxStep_toNumber (h x : NonNaN) :
    maxStep h.toNumber x = if jsLt h.toNumber x.toNumber then x.toNumber else h.toNumber := by
  cases h <;> rfl

/-- Folding `Math.max` from a running value: the result is the running value or an argument, and
bounds both. -/
theorem foldl_maxStep (l : List NonNaN) (h : NonNaN) :
    ∃ m : NonNaN, l.foldl maxStep h.toNumber = m.toNumber ∧ (m = h ∨ m ∈ l) ∧ h ≤ m ∧
      ∀ x ∈ l, x ≤ m := by
  induction l generalizing h with
  | nil => exact ⟨h, rfl, Or.inl rfl, nonNaN_le_refl h, by simp⟩
  | cons y l ih =>
    cases hy : jsLt h.toNumber y.toNumber with
    | true =>
      obtain ⟨m, e, hm, hle, hall⟩ := ih y
      refine ⟨m, ?_, ?_, nonNaN_le_trans _ _ _ (nonNaN_le_of_lt _ _ hy) hle, ?_⟩
      · rw [List.foldl_cons, maxStep_toNumber, hy]
        simpa using e
      · rcases hm with hm | hm
        · exact Or.inr (by simp [hm])
        · exact Or.inr (List.mem_cons_of_mem _ hm)
      · intro x hx
        rcases List.mem_cons.mp hx with e1 | hx
        · rw [e1]; exact hle
        · exact hall x hx
    | false =>
      obtain ⟨m, e, hm, hle, hall⟩ := ih h
      refine ⟨m, ?_, ?_, hle, ?_⟩
      · rw [List.foldl_cons, maxStep_toNumber, hy]
        simpa using e
      · rcases hm with hm | hm
        · exact Or.inl hm
        · exact Or.inr (List.mem_cons_of_mem _ hm)
      · intro x hx
        rcases List.mem_cons.mp hx with e1 | hx
        · rw [e1]; exact nonNaN_le_trans _ _ _ (nonNaN_le_of_not_lt _ _ hy) hle
        · exact hall x hx

theorem maxStep_negInf (y : NonNaN) : maxStep .negInf y = y.toNumber := by
  cases y <;> rfl

/-- On at least one argument `Math.max` is the greatest argument. -/
theorem mathMax_of_ne_nil (l : List NonNaN) (hne : l ≠ []) :
    ∃ m : NonNaN, mathMax l = m.toNumber ∧ m ∈ l ∧ ∀ x ∈ l, x ≤ m := by
  cases l with
  | nil => exact absurd rfl hne
  | cons y l =>
    obtain ⟨m, e, hm, hle, hall⟩ := foldl_maxStep l y
    refine ⟨m, ?_, ?_, ?_⟩
    · rw [mathMax, List.foldl_cons, maxStep_negInf]
      exact e
    · rcases hm with hm | hm
      · simp [hm]
      · exact List.mem_cons_of_mem _ hm
    · intro x hx
      rcases List.mem_cons.mp hx with e1 | hx
      · rw [e1]; exact hle
      · exact hall x hx

/-- The maximum of a part of the arguments is at most the maximum of all of them. -/
theorem mathMax_part_le (part all : List NonNaN) (m : NonNaN) (hsub : ∀ x ∈ part, x ∈ all)
    (hall : ∀ x ∈ all, x ≤ m) : jsLe (mathMax part) m.toNumber = true := by
  by_cases hp : part = []
  · subst hp
    cases m <;> rfl
  · obtain ⟨k, e, hk, _⟩ := mathMax_of_ne_nil part hp
    rw [e]
    exact hall k (hsub k hk)

/-- C5: for every primary series and every optional secondary series with at least one value in
total, the shared scale `maxValue` is the greatest of all the values of both series taken
together; it is at least the `Math.max` of each series alone, and with only a primary series it
is that series' `Math.max`. -/
theorem maxValue_is_joint_maximum (data : Series) (data2 : Option Series)
    (hne : data ++ data2.getD [] ≠ []) :
    (∃ m : NonNaN, maxValue data data2 = m.toNumber ∧ m ∈ data ++ data2.getD [] ∧
      ∀ x ∈ data ++ data2.getD [], x ≤ m) ∧
    jsLe (mathMax data) (maxValue data data2) = true ∧
    jsLe (mathMax (data2.getD [])) (maxValue data data2) = true ∧
    (data2 = none → maxValue data data2 = mathMax data) := by
  obtain ⟨m, e, hm, hall⟩ := mathMax_of_ne_nil _ hne
  refine ⟨⟨m, e, hm, hall⟩, ?_, ?_, ?_⟩
  · rw [maxValue, e]
    exact mathMax_part_le data _ m (fun x hx => List.mem_append_left _ hx) hall
  · rw [maxValue, e]
    exact mathMax_part_le _ _ m (fun x hx => List.mem_append_right _ hx) hall
  · intro h2
    subst h2
    simp [maxValue]

theorem maxValue_witness_eval : maxValue [10, 20] (some [35, 5]) = .fin 35 := by
  simp [maxValue, mathMax, maxStep, jsLt, NonNaN.toNumber, nonNaN_ofNat]
  norm_num

/-- C5, witness: assets `[10, 20]` against liabilities `[35, 5]` share the scale 35, the greatest
of the four values. -/
theorem maxValue_is_joint_maximum_witness :
    maxValue [10, 20] (some [35, 5]) = .fin 35 ∧
    (∃ m : NonNaN, maxValue [10, 20] (some [35, 5]) = m.toNumber ∧
      m ∈ ([10, 20] : Series) ++ (some ([35, 5] : Series)).getD [] ∧
      ∀ x ∈ ([10, 20] : Series) ++ (some ([35, 5] : Series)).getD [], x ≤ m) ∧
    jsLe (mathMax [10, 20]) (maxValue [10, 20] (some [35, 5])) = true :=
  ⟨maxValue_witness_eval,
    (maxValue_is_joint_maximum [10, 20] (some [35, 5]) (by simp)).1,
    (maxValue_is_joint_maximum [10, 20] (some [35, 5]) (by simp)).2.1⟩

/-! ## The rendered bars -/

/-- The group at position `i` holds the bars of index `start + i`. -/
theorem renderGroups_get {L : Type} (p : ChartProps L) (scale : JSNumber) (labels : List L)
    (start i : Nat) (g : ChartGroup L) (h : (renderGroups p scale start labels).get? i = some g) :
    g.primary = renderBar p.data scale (start + i) p.label1 p.color ∧
    g.secondary = p.data2.map (fun d2 => renderBar d2 scale (start + i) p.label2 p.color2) ∧
    labels.get? i = some g.label := by
  induction labels generalizing start i with
  | nil => simp [renderGroups] at h
  | cons label rest ih =>
    cases i with
    | zero =>
      simp [renderGroups] at h
      subst h
      simp
    | succ i =>
      simp only [renderGroups, List.get?_cons_succ] at h
      have := ih (start + 1) i h
      simpa [Nat.add_assoc, Nat.add_comm 1 i] using this

/-- One group is rendered per label. -/
theorem renderGroups_length {L : Type} (p : ChartProps L) (scale : JSNumber) (labels : List L)
    (start : Nat) : (renderGroups p scale start labels).length = labels.length := by
  induction labels generalizing start with
  | nil => rfl
  | cons label rest ih => simp [renderGroups, ih]

/-- A finite non-negative value over an infinite scale, or over a finite positive scale that
bounds it, has its quotient in the unit interval and its width between 0 and 100. -/
theorem proportion_unit (data : Series) (scale : JSNumber) (idx : Nat) (x : ℚ)
    (hget : data.get? idx = some (.fin x)) (hx : 0 ≤ x)
    (hscale : scale = .posInf ∨ ∃ m, scale = .fin m ∧ 0 < m ∧ x ≤ m) :
    ∃ q w, proportion data scale idx = .fin q ∧ 0 ≤ q ∧ q ≤ 1 ∧
      jsMul (proportion data scale idx) (.fin 100) = .fin w ∧ 0 ≤ w ∧ w ≤ 100 := by
  have helem : elemNumber data idx = .fin x := by
    rw [elemNumber, hget]
    rfl
  rcases hscale with hs | ⟨m, hs, hm, hxm⟩
  · have hp : proportion data scale idx = .fin 0 := by
      rw [proportion, helem, hs]
      rfl
    refine ⟨0, 0, hp, le_refl 0, by norm_num, ?_, le_refl 0, by norm_num⟩
    rw [hp]
    simp [jsMul, toDouble, NonNaN.toNumber]
  · obtain ⟨q, hq, hq0, hq1⟩ := toDouble_bounded (x / m) 1 (div_nonneg hx (le_of_lt hm))
      (by rw [Nat.cast_one]; exact (div_le_one hm).mpr hxm) (by norm_num)
    rw [Nat.cast_one] at hq1
    have hp : proportion data scale idx = .fin q := by
      rw [proportion, helem, hs]
      simp only [jsDiv, if_neg (ne_of_gt hm), hq]
      rfl
    obtain ⟨w, hw, hw0, hw1⟩ := toDouble_bounded (q * 100) 100 (by positivity)
      (by push_cast; linarith) (by norm_num)
    refine ⟨q, w, hp, hq0, hq1, ?_, hw0, by exact_mod_cast hw1⟩
    rw [hp]
    simp only [jsMul, hw]
    rfl

/-- C6 (as the code behaves): for every set of labels and one or two numeric series whose scale
`maxValue` is greater than zero, every rendered bar whose value (`data[idx]`, `data2[idx]`) is a
finite non-negative number has its proportion `value / maxValue` in [0,1] and its width, that
proportion times 100, between 0 and 100; nothing is clamped. -/
theorem bar_proportion_in_unit_interval {L : Type} (p : ChartProps L)
    (hpos : jsLt (.fin 0) (maxValue p.data p.data2) = true)
    (idx : Nat) (g : ChartGroup L) (hg : (SimpleBarChart p).get? idx = some g) :
    (∀ x : ℚ, p.data.get? idx = some (.fin x) → 0 ≤ x →
      ∃ q w, proportion p.data (maxValue p.data p.data2) idx = .fin q ∧ 0 ≤ q ∧ q ≤ 1 ∧
        g.primary.widthPercent = jsMul (.fin q) (.fin 100) ∧
        g.primary.widthPercent = .fin w ∧ 0 ≤ w ∧ w ≤ 100) ∧
    (∀ d2 (x : ℚ), p.data2 = some d2 → d2.get? idx = some (.fin x) → 0 ≤ x →
      ∃ q w bar, proportion d2 (maxValue p.data p.data2) idx = .fin q ∧ 0 ≤ q ∧ q ≤ 1 ∧
        g.secondary = some bar ∧ bar.widthPercent = jsMul (.fin q) (.fin 100) ∧
        bar.widthPercent = .fin w ∧ 0 ≤ w ∧ w ≤ 100) := by
  have hne : p.data ++ p.data2.getD [] ≠ [] := by
    intro h
    rw [maxValue, h] at hpos
    cases hpos
  obtain ⟨mx, e, _, hall⟩ := mathMax_of_ne_nil _ hne
  have hscale : maxValue p.data p.data2 = mx.toNumber := e
  have hbound : ∀ x : ℚ, NonNaN.fin x ∈ p.data ++ p.data2.getD [] →
      maxValue p.data p.data2 = .posInf ∨
        ∃ m, maxValue p.data p.data2 = .fin m ∧ 0 < m ∧ x ≤ m := by
    intro x hx
    have hle := hall _ hx
    rw [hscale] at hpos ⊢
    cases mx with
    | negInf => cases hpos
    | posInf => exact Or.inl rfl
    | fin m =>
      have h2 : decide ((0 : ℚ) < m) = true := hpos
      exact Or.inr ⟨m, rfl, decide_eq_true_iff.mp h2, (nonNaN_fin_le x m).mp hle⟩
  obtain ⟨h1, h2, _⟩ := renderGroups_get p _ p.labels 0 idx g hg
  rw [Nat.zero_add] at h1 h2
  constructor
  · intro x hget hx
    obtain ⟨q, w, hq, hq0, hq1, hw, hw0, hw1⟩ := proportion_unit p.data _ idx x hget hx
      (hbound x (List.mem_append_left _ (List.get?_mem hget)))
    have hwidth : g.primary.widthPercent
        = jsMul (proportion p.data (maxValue p.data p.data2) idx) (.fin 100) := by
      rw [h1]
      rfl
    exact ⟨q, w, hq, hq0, hq1, by rw [hwidth, hq], by rw [hwidth, hw], hw0, hw1⟩
  · intro d2 x hd2 hget hx
    have hmem : NonNaN.fin x ∈ p.data ++ p.data2.getD [] := by
      rw [hd2]
      exact List.mem_append_right _ (List.get?_mem hget)
    obtain ⟨q, w, hq, hq0, hq1, hw, hw0, hw1⟩ := proportion_unit d2 _ idx x hget hx (hbound x hmem)
    refine ⟨q, w, renderBar d2 (maxValue p.data p.data2) idx p.label2 p.color2, hq, hq0, hq1,
      ?_, ?_, ?_, hw0, hw1⟩
    · rw [h2, hd2]
      rfl
    · rw [← hq]
      rfl
    · rw [← hw]
      rfl

theorem maxValue_revenue_eval : maxValue [100, 150] none = .fin 150 := by
  simp [maxValue, mathMax, maxStep, jsLt, NonNaN.toNumber, nonNaN_ofNat]
  norm_num

/-- C6, witness: revenue `[100, 150]` over two years; the scale is 150 and the first bar, of value
100, is within the unit interval. -/
theorem bar_proportion_in_unit_interval_witness :
    jsLt (.fin 0) (maxValue [100, 150] none) = true ∧
    ∃ g, (SimpleBarChart { labels := [utf16 "2023", utf16 "2024"], data := [100, 150] }).get? 0
        = some g ∧
      ∃ q w, proportion [100, 150] (maxValue [100, 150] none) 0 = .fin q ∧ 0 ≤ q ∧ q ≤ 1 ∧
        g.primary.widthPercent = jsMul (.fin q) (.fin 100) ∧
        g.primary.widthPercent = .fin w ∧ 0 ≤ w ∧ w ≤ 100 :=
  have hpos : jsLt (.fin 0) (maxValue [100, 150] none) = true := by
    rw [maxValue_revenue_eval]
    show decide ((0 : ℚ) < 150) = true
    exact decide_eq_true (by norm_num)
  ⟨hpos, _, rfl,
    (bar_proportion_in_unit_interval
      { labels := [utf16 "2023", utf16 "2024"], data := [100, 150] } hpos 0 _ rfl).1
      ((100 : ℕ) : ℚ) rfl (by norm_num)⟩

theorem toDouble_neg_half : toDouble (-5 / 10) = .fin (-1 / 2) := by
  have h : (-5 / 10 : ℚ) = -(((1 : ℕ) : ℚ) / (2 : ℚ) ^ 1) := by norm_num
  rw [h, toDouble_neg, toDouble_dyadic 1 1 (by norm_num) (by norm_num)]
  simp only [NonNaN.neg]
  norm_num

theorem toDouble_neg_fifty : toDouble (-1 / 2 * 100) = .fin (-50) := by
  have h : (-1 / 2 * 100 : ℚ) = -((50 : ℕ) : ℚ) := by norm_num
  rw [h, toDouble_neg, toDouble_natCast 50 (by norm_num)]
  simp only [NonNaN.neg]
  norm_num

theorem maxValue_equity_eval : maxValue [.fin (-5), 10] none = .fin 10 := by
  simp [maxValue, mathMax, maxStep, jsLt, NonNaN.toNumber, nonNaN_ofNat]
  norm_num

/-- C6, counterexample: with equity `[-5, 10]` the scale is 10 and the first bar has proportion
-1/2 and width -50, below the unit interval. -/
theorem negative_value_counterexample :
    maxValue [.fin (-5), 10] none = .fin 10 ∧
    proportion [.fin (-5), 10] (maxValue [.fin (-5), 10] none) 0 = .fin (-1 / 2) ∧
    (-1 / 2 : ℚ) < 0 ∧
    ((SimpleBarChart { labels := [utf16 "2023", utf16 "2024"], data := [.fin (-5), 10] }).get? 0).map
      (fun g => g.primary.widthPercent) = some (.fin (-50)) := by
  have hp : proportion [.fin (-5), 10] (.fin 10) 0 = .fin (-1 / 2) := by
    show jsDiv (.fin (-5)) (.fin 10) = .fin (-1 / 2)
    simp only [jsDiv, if_neg (by norm_num : ¬ (10 : ℚ) = 0), toDouble_neg_half]
    rfl
  refine ⟨maxValue_equity_eval, ?_, by norm_num, ?_⟩
  · rw [maxValue_equity_eval, hp]
  · show some (jsMul (proportion [.fin (-5), 10] (maxValue [.fin (-5), 10] none) 0) (.fin 100))
      = some (.fin (-50))
    rw [maxValue_equity_eval, hp]
    simp only [jsMul, toDouble_neg_fifty]
    rfl

/-- Over a zero scale, or the scale of no value at all, a series of zeros has the quotient NaN at
every index. -/
theorem proportion_zero_scale (data : Series) (scale : JSNumber) (idx : Nat)
    (hz : ∀ x ∈ data, x = 0) (hs : scale = .fin 0 ∨ (scale = .negInf ∧ data = [])) :
    proportion data scale idx = .nan := by
  rcases hs with hs | ⟨hs, hd⟩
  · subst hs
    cases hget : data.get? idx with
    | none => rw [proportion, elemNumber, hget]; rfl
    | some x =>
      have hx : x = 0 := hz x (List.get?_mem hget)
      rw [proportion, elemNumber, hget, hx]
      simp [jsDiv, nonNaN_ofNat, NonNaN.toNumber]
  · subst hs hd
    rfl

/-- The scale of series of zeros: 0, or `-Infinity` when there is no value. -/
theorem maxValue_zeros (all : List NonNaN) (hz : ∀ x ∈ all, x = 0) :
    (all ≠ [] → mathMax all = .fin 0) ∧ (all = [] → mathMax all = .negInf) := by
  constructor
  · intro hne
    obtain ⟨m, e, hm, _⟩ := mathMax_of_ne_nil all hne
    rw [e, hz m hm]
    simp [nonNaN_ofNat, NonNaN.toNumber]
  · intro h
    subst h
    rfl

/-- C7 (as the code behaves): when every value of the supplied series is zero, or the series are
empty, the scale is 0 (`-Infinity` without any value) and no degenerate case is told apart: the
width of every bar is the quotient by that scale, which is NaN and not zero, while each bar
within its series still shows its literal value 0. -/
theorem zero_scale_width_is_nan {L : Type} (p : ChartProps L)
    (hzero : ∀ x ∈ p.data ++ p.data2.getD [], x = 0)
    (idx : Nat) (g : ChartGroup L) (hg : (SimpleBarChart p).get? idx = some g) :
    (p.data ++ p.data2.getD [] ≠ [] → maxValue p.data p.data2 = .fin 0) ∧
    (p.data ++ p.data2.getD [] = [] → maxValue p.data p.data2 = .negInf) ∧
    g.primary.widthPercent = .nan ∧
    (∀ bar, g.secondary = some bar → bar.widthPercent = .nan) ∧
    (idx < p.data.length → g.primary.value = some 0) ∧
    (∀ d2 bar, p.data2 = some d2 → g.secondary = some bar → idx < d2.length →
      bar.value = some 0) := by
  obtain ⟨hne, hnil⟩ := maxValue_zeros _ hzero
  obtain ⟨h1, h2, _⟩ := renderGroups_get p _ p.labels 0 idx g hg
  rw [Nat.zero_add] at h1 h2
  have hscale : ∀ d : Series, (∀ x ∈ d, x ∈ p.data ++ p.data2.getD []) →
      proportion d (maxValue p.data p.data2) idx = .nan := by
    intro d hd
    apply proportion_zero_scale d _ idx (fun x hx => hzero x (hd x hx))
    by_cases hall : p.data ++ p.data2.getD [] = []
    · right
      refine ⟨hnil hall, ?_⟩
      cases d with
      | nil => rfl
      | cons y d => exact absurd (hd y (by simp)) (by simp [hall])
    · exact Or.inl (hne hall)
  refine ⟨hne, hnil, ?_, ?_, ?_, ?_⟩
  · rw [h1, renderBar, hscale p.data (fun x hx => List.mem_append_left _ hx)]
    rfl
  · intro bar hbar
    cases hd2 : p.data2 with
    | none => simp [h2, hd2] at hbar
    | some d2 =>
      have hmem : ∀ x ∈ d2, x ∈ p.data ++ p.data2.getD [] := by
        intro x hx
        simp [hd2, hx]
      rw [h2, hd2] at hbar
      simp only [Option.map_some', Option.some.injEq] at hbar
      have hp := hscale d2 hmem
      rw [hd2] at hp
      rw [← hbar, renderBar, hp]
      rfl
  · intro hidx
    rw [h1, renderBar]
    show p.data.get? idx = some 0
    rw [List.get?_eq_get hidx]
    exact congrArg some (hzero _ (List.mem_append_left _ (List.get_mem _ _ _)))
  · intro d2 bar hd2 hbar hidx
    rw [h2, hd2] at hbar
    simp only [Option.map_some', Option.some.injEq] at hbar
    rw [← hbar, renderBar]
    show d2.get? idx = some 0
    rw [List.get?_eq_get hidx]
    exact congrArg some (hzero _ (by simp [hd2, List.get_mem]))

/-- C7, witness: revenue `[0, 0]` over two years. -/
theorem zero_scale_width_is_nan_witness :
    ∃ g, (SimpleBarChart { labels := [utf16 "2023", utf16 "2024"], data := [0, 0] }).get? 1
        = some g ∧ g.primary.widthPercent = .nan ∧ g.primary.value = some 0 :=
  have h := zero_scale_width_is_nan
    { labels := [utf16 "2023", utf16 "2024"], data := [0, 0] }
    (by intro x hx; simp at hx; exact hx) 1 _ rfl
  ⟨_, rfl, h.2.2.1, h.2.2.2.2.1 (by simp)⟩

/-- C7, counterexample: for revenue `[0, 0]` the scale is 0, it is divided by, and both bars get
the width NaN instead of 0 while showing 0. -/
theorem zero_series_counterexample :
    maxValue [0, 0] none = .fin 0 ∧
    (SimpleBarChart { labels := [utf16 "2023", utf16 "2024"], data := [0, 0] }).map
      (fun g => g.primary.widthPercent) = [.nan, .nan] ∧
    (SimpleBarChart { labels := [utf16 "2023", utf16 "2024"], data := [0, 0] }).map
      (fun g => g.primary.value) = [some 0, some 0] ∧
    JSNumber.nan ≠ JSNumber.fin 0 := by
  have hm : maxValue [0, 0] none = .fin 0 := by
    simp [maxValue, mathMax, maxStep, jsLt, NonNaN.toNumber, nonNaN_ofNat]
  have hp : ∀ idx, proportion ([0, 0] : Series) (.fin 0) idx = .nan := fun idx =>
    proportion_zero_scale _ _ idx (by intro x hx; simp at hx; exact hx) (Or.inl rfl)
  refine ⟨hm, ?_, ?_, by decide⟩
  · simp only [SimpleBarChart, renderGroups, renderBar, hm, hp, List.map]
    rfl
  · simp [SimpleBarChart, renderGroups, renderBar]

end BsAnalyst
